import Mathlib

/-!
Verification of the resource-group dispatcher and the type-coercion helper of
the devtron slice under study.  The Go code is embedded shallowly: Go interface
values become the sum type `GoValue`, fallible Go functions return `Except` or
`Option`, and the HTTP handlers become pure functions from an oracle
environment (collaborator results) to an outcome record that also reports which
collaborators were invoked and with which arguments.
-/

namespace Devtron

/-! ## Part 1: model of src/pkg/variables/utils/type-utils.go and of the Go
standard-library functions it calls (strconv.Atoi, strconv.ParseFloat,
strconv.ParseBool, strings.Trim, encoding/json). -/

/-- Runtime Go values as they occur in the type-coercion helper: the dynamic
types handled by `StringifyValue` and `DestringifyValue` plus a few
non-primitive shapes so the reflection-based classifiers have a meaningful
domain.  The `floatV` payload is the source token accepted by ParseFloat; no
verified property depends on the IEEE value of a float.  The `nil` constructor
is the nil interface value. -/
inductive GoValue where
  | nil
  | jsonNumber (s : String)
  | str (s : String)
  | boolean (b : Bool)
  | intV (n : Int)
  | floatV (tok : String)
  | sliceV (xs : List Int)
  | mapV
  deriving DecidableEq, Repr

/-- Decimal digit test, as in Go's strconv. -/
def isDigit (c : Char) : Bool := '0' ≤ c && c ≤ '9'

/-- Hexadecimal digit test. -/
def isHexDigit (c : Char) : Bool :=
  isDigit c || ('a' ≤ c && c ≤ 'f') || ('A' ≤ c && c ≤ 'F')

/-- Value of a list of decimal digits. -/
def digitsVal (l : List Char) : Nat :=
  l.foldl (fun acc c => acc * 10 + (c.toNat - 48)) 0

/-- Value of a list of hexadecimal digits. -/
def hexVal (l : List Char) : Nat :=
  l.foldl (fun acc c =>
    acc * 16 + (if isDigit c then c.toNat - 48
      else if 'a' ≤ c && c ≤ 'f' then c.toNat - 87
      else c.toNat - 55)) 0

/-- Parse a non-empty all-digit list; `none` otherwise. -/
def parseDecDigits (l : List Char) : Option Nat :=
  if l = [] then none
  else if l.all isDigit then some (digitsVal l) else none

/-- Smallest Go int64. -/
def int64Min : Int := -(2 ^ 63)

/-- Largest Go int64. -/
def int64Max : Int := 2 ^ 63 - 1

/-- Model of Go `strconv.Atoi` on a 64-bit platform: an optional sign followed
by decimal digits (no underscores, since Atoi calls ParseInt with an explicit
base 10), with the value required to fit in int64; any error (syntax or range)
makes the result `none`. -/
def goAtoiList (l : List Char) : Option Int :=
  let signed : Option Int :=
    match l with
    | [] => none
    | c :: rest =>
      if c = '+' then (parseDecDigits rest).map Int.ofNat
      else if c = '-' then (parseDecDigits rest).map (fun n => -(Int.ofNat n))
      else (parseDecDigits (c :: rest)).map Int.ofNat
  match signed with
  | some v => if int64Min ≤ v ∧ v ≤ int64Max then some v else none
  | none => none

/-- Model of Go `strconv.Atoi` (string wrapper). -/
def goAtoi (s : String) : Option Int := goAtoiList s.data

/-- Model of Go `strconv.ParseBool`: exactly the twelve accepted literals. -/
def goParseBool (s : String) : Option Bool :=
  if s = "1" ∨ s = "t" ∨ s = "T" ∨ s = "TRUE" ∨ s = "true" ∨ s = "True" then some true
  else if s = "0" ∨ s = "f" ∨ s = "F" ∨ s = "FALSE" ∨ s = "false" ∨ s = "False" then some false
  else none

/-- Exponent digits of a float literal: optional sign then at least one
decimal digit, as an integer. -/
def expDigitsParse (l : List Char) : Option Int :=
  match l with
  | '+' :: r => if r ≠ [] ∧ r.all isDigit then some (Int.ofNat (digitsVal r)) else none
  | '-' :: r => if r ≠ [] ∧ r.all isDigit then some (-(Int.ofNat (digitsVal r))) else none
  | r => if r ≠ [] ∧ r.all isDigit then some (Int.ofNat (digitsVal r)) else none

/-- Optional decimal exponent part (`e` or `E`); empty input means exponent 0. -/
def expParse : List Char → Option Int
  | [] => some 0
  | 'e' :: r => expDigitsParse r
  | 'E' :: r => expDigitsParse r
  | _ => none

/-- Mandatory binary exponent part of a hex float (`p` or `P`). -/
def hexExpParse : List Char → Option Int
  | 'p' :: r => expDigitsParse r
  | 'P' :: r => expDigitsParse r
  | _ => none

/-- Decimal float body (sign already removed): digits with at most one point
and at least one digit, then an optional exponent.  Returns the mantissa as an
integer together with the decimal exponent so the overflow test can be exact. -/
def decFloatParse (l : List Char) : Option (Nat × Int) :=
  let d1 := l.takeWhile isDigit
  let r1 := l.dropWhile isDigit
  match r1 with
  | c :: r2 =>
    if c = '.' then
      let d2 := r2.takeWhile isDigit
      let r3 := r2.dropWhile isDigit
      if d1.length + d2.length = 0 then none
      else (expParse r3).map (fun ex => (digitsVal (d1 ++ d2), ex - Int.ofNat d2.length))
    else if d1.length = 0 then none
    else (expParse (c :: r2)).map (fun ex => (digitsVal d1, ex))
  | [] =>
    if d1.length = 0 then none
    else (expParse []).map (fun ex => (digitsVal d1, ex))

/-- Hexadecimal float body (after the 0x prefix): hex digits with at most one
point and at least one digit, then a mandatory binary exponent. -/
def hexFloatParse (l : List Char) : Option (Nat × Int) :=
  let d1 := l.takeWhile isHexDigit
  let r1 := l.dropWhile isHexDigit
  match r1 with
  | '.' :: r2 =>
    let d2 := r2.takeWhile isHexDigit
    let r3 := r2.dropWhile isHexDigit
    if d1.length + d2.length = 0 then none
    else (hexExpParse r3).map (fun ex => (hexVal (d1 ++ d2), ex - 4 * Int.ofNat d2.length))
  | _ =>
    if d1.length = 0 then none
    else (hexExpParse r1).map (fun ex => (hexVal d1, ex))

/-- Exact overflow threshold of float64 under round-to-nearest-even: the
midpoint between the largest finite float64 and 2^1024; a parsed magnitude
reaching this value makes ParseFloat report ErrRange. -/
def tFloatMax : Nat := (2 ^ 54 - 1) * 2 ^ 970

/-- Whether a decimal mantissa/exponent pair overflows float64 (ErrRange).
The value is 0.digits x 10 ^ dp with dp the decimal-point position; only in
the single decade straddling the float64 maximum is the exact integer
comparison needed, the way Go's conversion short-circuits extreme
exponents. -/
def decOverflow (m : Nat) (e : Int) : Bool :=
  if m = 0 then false
  else
    let dp : Int := Int.ofNat (Nat.toDigits 10 m).length + e
    if dp > 310 then true
    else if dp < 309 then false
    else
      match e with
      | Int.ofNat e2 => decide (tFloatMax ≤ m * 10 ^ e2)
      | Int.negSucc e2 => decide (tFloatMax * 10 ^ (e2 + 1) ≤ m)

/-- Whether a hexadecimal mantissa with binary exponent overflows float64.
The value is m x 2 ^ e and lies in [2 ^ (bl + e - 1), 2 ^ (bl + e)) for bl
the bit length of m; only when that interval straddles the float64 maximum is
the exact integer comparison needed. -/
def hexOverflow (m : Nat) (e : Int) : Bool :=
  if m = 0 then false
  else
    let bp : Int := Int.ofNat (Nat.toDigits 2 m).length + e
    if bp > 1024 then true
    else if bp < 1024 then false
    else
      match e with
      | Int.ofNat e2 => decide (tFloatMax ≤ m * 2 ^ e2)
      | Int.negSucc e2 => decide (tFloatMax * 2 ^ (e2 + 1) ≤ m)

/-- Case-insensitive `inf` / `infinity` token. -/
def infTok (l : List Char) : Bool :=
  l.map Char.toLower = ['i', 'n', 'f'] ∨
  l.map Char.toLower = ['i', 'n', 'f', 'i', 'n', 'i', 't', 'y']

/-- Special float literals accepted by ParseFloat: optionally signed
infinities and the unsigned not-a-number literal, case-insensitive. -/
def specialFloat (l : List Char) : Bool :=
  match l with
  | [] => false
  | c :: rest =>
    if c = '+' ∨ c = '-' then infTok rest
    else infTok (c :: rest) ∨ (c :: rest).map Char.toLower = ['n', 'a', 'n']

/-- State loop of Go strconv's underscore placement check: `saw` is the class
of the previous character ('^' start, '0' digit or base prefix, '_'
underscore, '!' other). -/
def underscoreOKAux (hex : Bool) (saw : Char) : List Char → Bool
  | [] => saw ≠ '_'
  | c :: rest =>
    if isDigit c ∨ (hex ∧ ('a' ≤ c.toLower ∧ c.toLower ≤ 'f')) then
      underscoreOKAux hex '0' rest
    else if c = '_' then
      if saw = '0' then underscoreOKAux hex '_' rest else false
    else if saw = '_' then false
    else underscoreOKAux hex '!' rest

/-- Model of Go strconv's `underscoreOK`: underscores may only separate
digits (or follow a base prefix). -/
def underscoreOK (l : List Char) : Bool :=
  let l1 := match l with
    | '+' :: r => r
    | '-' :: r => r
    | other => other
  match l1 with
  | '0' :: c :: rest =>
    if c.toLower = 'b' ∨ c.toLower = 'o' ∨ c.toLower = 'x' then
      underscoreOKAux (c.toLower = 'x') '0' rest
    else underscoreOKAux false '^' l1
  | _ => underscoreOKAux false '^' l1

/-- Strip one leading sign character, as ParseFloat does before reading the
number body. -/
def goStripSign : List Char → List Char
  | [] => []
  | c :: rest => if c = '+' ∨ c = '-' then rest else c :: rest

/-- Detect a `0x` / `0X` hexadecimal prefix and return what follows it. -/
def hexPrefix : List Char → Option (List Char)
  | c0 :: c1 :: r => if c0 = '0' ∧ (c1 = 'x' ∨ c1 = 'X') then some r else none
  | _ => none

/-- Syntax-and-range acceptance of an underscore-free float literal (sign,
then decimal or 0x-prefixed hexadecimal body). -/
def goParseFloatCore (l : List Char) : Bool :=
  let l1 := goStripSign l
  match hexPrefix l1 with
  | some r =>
    match hexFloatParse r with
    | none => false
    | some (m, e) => !hexOverflow m e
  | none =>
    match decFloatParse l1 with
    | none => false
    | some (m, e) => !decOverflow m e

/-- Model of Go `strconv.ParseFloat(s, 64)` returning a nil error: special
literals, or a well-formed decimal/hexadecimal literal (underscores only
between digits) whose magnitude does not overflow float64.  Underflow to zero
is not an error in Go, so only overflow rejects. -/
def goParseFloatAccepts (s : String) : Bool :=
  let l := s.data
  if specialFloat l then true
  else if l.contains '_' then
    underscoreOK l && goParseFloatCore (l.filter (fun c => c ≠ '_'))
  else goParseFloatCore l

/-- Quote character test for strings.Trim. -/
def isQuote (c : Char) : Bool := c = '\"'

/-- Model of Go `strings.Trim(s, "\"")` on the character list: drop every
leading and every trailing double quote. -/
def trimQuotesList (l : List Char) : List Char :=
  ((l.dropWhile isQuote).reverse.dropWhile isQuote).reverse

/-- Model of Go `strings.Trim(s, "\"")`. -/
def goTrimQuotes (s : String) : String := String.mk (trimQuotesList s.data)

/-- JSON number grammar step: integer part (`0` or nonzero digit then
digits). -/
def jsonIntPart : List Char → Option (List Char × List Char)
  | [] => none
  | c :: r =>
    if c = '0' then some ([c], r)
    else if isDigit c then some (c :: r.takeWhile isDigit, r.dropWhile isDigit)
    else none

/-- JSON number grammar step: optional fraction part. -/
def jsonFracPart : List Char → Option (List Char × List Char)
  | '.' :: r =>
    let ds := r.takeWhile isDigit
    if ds = [] then none else some ('.' :: ds, r.dropWhile isDigit)
  | l => some ([], l)

/-- JSON number grammar step: exponent digits after an optional sign. -/
def jsonExpDigits (pre : List Char) (l : List Char) : Option (List Char × List Char) :=
  let ds := l.takeWhile isDigit
  if ds = [] then none else some (pre ++ ds, l.dropWhile isDigit)

/-- JSON number grammar step: optional exponent part. -/
def jsonExpPart : List Char → Option (List Char × List Char)
  | 'e' :: '+' :: r => jsonExpDigits ['e', '+'] r
  | 'e' :: '-' :: r => jsonExpDigits ['e', '-'] r
  | 'e' :: r => jsonExpDigits ['e'] r
  | 'E' :: '+' :: r => jsonExpDigits ['E', '+'] r
  | 'E' :: '-' :: r => jsonExpDigits ['E', '-'] r
  | 'E' :: r => jsonExpDigits ['E'] r
  | l => some ([], l)

/-- Longest prefix of `l` that is a JSON number token, with the rest. -/
def parseJsonNumberTok (l : List Char) : Option (List Char × List Char) :=
  let signAndRest : List Char × List Char :=
    match l with
    | '-' :: r => (['-'], r)
    | _ => ([], l)
  match jsonIntPart signAndRest.2 with
  | none => none
  | some (ip, r1) =>
    match jsonFracPart r1 with
    | none => none
    | some (fp, r2) =>
      match jsonExpPart r2 with
      | none => none
      | some (ep, r3) => some (signAndRest.1 ++ ip ++ fp ++ ep, r3)

/-- Model of encoding/json's `isValidNumber`: the whole string is one JSON
number token.  json.Marshal of a `json.Number` checks exactly this. -/
def isValidJsonNumber (s : String) : Bool :=
  match parseJsonNumberTok s.data with
  | some (_, []) => true
  | _ => false

/-- Model of Go fmt's %v verb on the modelled values, used only inside the
error message of `StringifyValue`. -/
def goFormatV : GoValue → String
  | GoValue.nil => "<nil>"
  | GoValue.jsonNumber s => s
  | GoValue.str s => s
  | GoValue.boolean b => if b then "true" else "false"
  | GoValue.intV n => toString n
  | GoValue.floatV tok => tok
  | GoValue.sliceV xs => "[" ++ String.intercalate " " (xs.map toString) ++ "]"
  | GoValue.mapV => "map[]"

/-- Model of `StringifyValue` (type-utils.go lines 28-43): a `json.Number`
marshals to its raw token when valid (the Marshal error is discarded in the
source, leaving the empty string otherwise), a string is wrapped in double
quotes without escaping, a bool formats as true/false, and every other dynamic
type is rejected as complex. -/
def StringifyValue (data : GoValue) : Except String String :=
  match data with
  | GoValue.jsonNumber s => Except.ok (if isValidJsonNumber s then s else "")
  | GoValue.str s => Except.ok ("\"" ++ s ++ "\"")
  | GoValue.boolean b => Except.ok (if b then "true" else "false")
  | _ => Except.error ("complex values are not allowed. " ++ goFormatV data ++
      " neeeds to be stringified")

/-- Model of `DestringifyValue` (type-utils.go lines 44-56): try Atoi, then
ParseFloat, then ParseBool, otherwise strings.Trim the double quotes; the
second component is the returned error, which is always nil in the source. -/
def DestringifyValue (Data : String) : GoValue × Option String :=
  match goAtoi Data with
  | some n => (GoValue.intV n, none)
  | none =>
    if goParseFloatAccepts Data then (GoValue.floatV Data, none)
    else
      match goParseBool Data with
      | some b => (GoValue.boolean b, none)
      | none => (GoValue.str (goTrimQuotes Data), none)

/-- Go reflection kinds needed by the classifiers in type-utils.go. -/
inductive GoKind where
  | invalid
  | int | int8 | int16 | int32 | int64
  | uint | uint8 | uint16 | uint32 | uint64
  | float32 | float64
  | bool
  | string
  | slice
  | map
  deriving DecidableEq, Repr

/-- Kind of a value as computed by `reflect.ValueOf(v).Kind()`; the nil
interface gives the zero Value, whose kind is Invalid (no panic).  A
`json.Number` is a defined type whose underlying kind is String. -/
def reflectKind : GoValue → GoKind
  | GoValue.nil => GoKind.invalid
  | GoValue.jsonNumber _ => GoKind.string
  | GoValue.str _ => GoKind.string
  | GoValue.boolean _ => GoKind.bool
  | GoValue.intV _ => GoKind.int
  | GoValue.floatV _ => GoKind.float64
  | GoValue.sliceV _ => GoKind.slice
  | GoValue.mapV => GoKind.map

/-- Model of `reflect.TypeOf`: the nil interface has no type descriptor, so
the result is `none`; invoking a method on that nil interface panics. -/
def reflectTypeOf : GoValue → Option GoKind
  | GoValue.nil => none
  | v => some (reflectKind v)

/-- Model of `IsPrimitiveType` (type-utils.go lines 74-83): the exact list of
kind comparisons from the source. -/
def IsPrimitiveType (value : GoValue) : Bool :=
  let kind := reflectKind value
  kind == GoKind.int || kind == GoKind.int8 || kind == GoKind.int16 ||
  kind == GoKind.int32 || kind == GoKind.int64 || kind == GoKind.uint ||
  kind == GoKind.uint8 || kind == GoKind.uint16 || kind == GoKind.uint32 ||
  kind == GoKind.uint64 || kind == GoKind.float32 || kind == GoKind.float64 ||
  kind == GoKind.bool

/-- Model of `IsStringType` (type-utils.go lines 85-87):
`reflect.TypeOf(val).Kind() == reflect.String`; `none` models the panic that
the method call raises when `reflect.TypeOf` returned the nil interface. -/
def IsStringType (val : GoValue) : Option Bool :=
  match reflectTypeOf val with
  | none => none
  | some k => some (k == GoKind.string)

/-! ## Part 2: model of encoding/json parsing (for IsValidJSON) and of the
external ghodss/yaml converter (for IsValidYAML). -/

/-- Parsed JSON values.  Number tokens are kept verbatim and string contents
keep their escape sequences unconverted: only validity and the top-level shape
matter to the verified properties. -/
inductive JsonValue where
  | null
  | bool (b : Bool)
  | num (tok : String)
  | str (s : String)
  | arr (xs : List JsonValue)
  | obj (fields : List (String × JsonValue))
  deriving Repr

/-- JSON whitespace per RFC 8259 (what encoding/json skips). -/
def isJsonWs (c : Char) : Bool := c = ' ' || c = '\t' || c = '\n' || c = '\r'

/-- Skip JSON whitespace. -/
def skipWs (l : List Char) : List Char := l.dropWhile isJsonWs

/-- Body of a JSON string after the opening quote: plain characters above
0x1F, simple escapes and `\uXXXX` escapes; returns the raw body and the rest
after the closing quote. -/
def parseJsonStringBody : Nat → List Char → Option (List Char × List Char)
  | 0, _ => none
  | _, [] => none
  | Nat.succ fuel, c :: rest =>
    if c = '\"' then some ([], rest)
    else if c = '\\' then
      match rest with
      | [] => none
      | e :: rest2 =>
        if e = '\"' ∨ e = '\\' ∨ e = '/' ∨ e = 'b' ∨ e = 'f' ∨ e = 'n' ∨ e = 'r' ∨ e = 't' then
          (parseJsonStringBody fuel rest2).map (fun p => (c :: e :: p.1, p.2))
        else if e = 'u' then
          match rest2 with
          | h1 :: h2 :: h3 :: h4 :: rest3 =>
            if isHexDigit h1 ∧ isHexDigit h2 ∧ isHexDigit h3 ∧ isHexDigit h4 then
              (parseJsonStringBody fuel rest3).map
                (fun p => (c :: e :: h1 :: h2 :: h3 :: h4 :: p.1, p.2))
            else none
          | _ => none
        else none
    else if c.toNat < 32 then none
    else (parseJsonStringBody fuel rest).map (fun p => (c :: p.1, p.2))

mutual

/-- One JSON value and the unconsumed rest, with fuel for nesting. -/
def parseJsonVal : Nat → List Char → Option (JsonValue × List Char)
  | 0, _ => none
  | Nat.succ fuel, l =>
    match skipWs l with
    | 'n' :: 'u' :: 'l' :: 'l' :: rest => some (JsonValue.null, rest)
    | 't' :: 'r' :: 'u' :: 'e' :: rest => some (JsonValue.bool true, rest)
    | 'f' :: 'a' :: 'l' :: 's' :: 'e' :: rest => some (JsonValue.bool false, rest)
    | '\"' :: rest =>
      (parseJsonStringBody fuel rest).map (fun p => (JsonValue.str (String.mk p.1), p.2))
    | '[' :: rest =>
      match skipWs rest with
      | ']' :: rest2 => some (JsonValue.arr [], rest2)
      | _ => (parseJsonElems fuel rest).map (fun p => (JsonValue.arr p.1, p.2))
    | '\x7b' :: rest =>
      match skipWs rest with
      | '\x7d' :: rest2 => some (JsonValue.obj [], rest2)
      | _ => (parseJsonMembers fuel rest).map (fun p => (JsonValue.obj p.1, p.2))
    | rest =>
      (parseJsonNumberTok rest).map (fun p => (JsonValue.num (String.mk p.1), p.2))

/-- Comma-separated array elements up to the closing bracket. -/
def parseJsonElems : Nat → List Char → Option (List JsonValue × List Char)
  | 0, _ => none
  | Nat.succ fuel, l =>
    match parseJsonVal fuel l with
    | none => none
    | some (v, rest) =>
      match skipWs rest with
      | ',' :: rest2 => (parseJsonElems fuel rest2).map (fun p => (v :: p.1, p.2))
      | ']' :: rest2 => some ([v], rest2)
      | _ => none

/-- Comma-separated object members up to the closing brace. -/
def parseJsonMembers : Nat → List Char → Option (List (String × JsonValue) × List Char)
  | 0, _ => none
  | Nat.succ fuel, l =>
    match skipWs l with
    | '\"' :: r =>
      match parseJsonStringBody fuel r with
      | none => none
      | some (key, r2) =>
        match skipWs r2 with
        | ':' :: r3 =>
          match parseJsonVal fuel r3 with
          | none => none
          | some (v, r4) =>
            match skipWs r4 with
            | ',' :: r5 =>
              (parseJsonMembers fuel r5).map (fun p => ((String.mk key, v) :: p.1, p.2))
            | '\x7d' :: r5 => some ([(String.mk key, v)], r5)
            | _ => none
        | _ => none
    | _ => none

end

/-- Parse a whole string as exactly one JSON value (what encoding/json's
validity scan requires of the complete input). -/
def parseJsonTop (s : String) : Option JsonValue :=
  match parseJsonVal (2 * s.length + 8) s.data with
  | some (v, rest) => if skipWs rest = [] then some v else none
  | none => none

/-- Model of `json.Unmarshal(input, &m)` for `m : map[string]interface*`:
malformed input is an error, a top-level object fills the map, the literal
null is a successful no-op (the map stays empty), every other top-level value
is a type-mismatch error. -/
def goUnmarshalMapResult (s : String) : Except String (List (String × JsonValue)) :=
  match parseJsonTop s with
  | none => Except.error "invalid json"
  | some (JsonValue.obj fields) => Except.ok fields
  | some JsonValue.null => Except.ok []
  | some _ => Except.error "cannot unmarshal into map"

/-- Model of `IsValidJSON` (type-utils.go lines 66-72): unmarshal into a
string-keyed map and report whether that produced an error. -/
def IsValidJSON (input : String) : Bool :=
  match goUnmarshalMapResult input with
  | Except.ok _ => true
  | Except.error _ => false

/-- Split a character list into lines at newline characters. -/
def splitLinesAux : List Char → List Char → List (List Char)
  | [], acc => [acc.reverse]
  | '\n' :: rest, acc => acc.reverse :: splitLinesAux rest []
  | c :: rest, acc => splitLinesAux rest (c :: acc)

/-- Split a line at its first `": "` separator. -/
def splitColonSpace : List Char → Option (List Char × List Char)
  | [] => none
  | ':' :: ' ' :: rest => some ([], rest)
  | c :: rest => (splitColonSpace rest).map (fun p => (c :: p.1, p.2))

/-- Render a YAML scalar as JSON: integer and boolean tokens stay bare,
anything else is quoted. -/
def yamlScalarJson (v : List Char) : List Char :=
  if (goAtoiList v).isSome then v
  else if v = ['t', 'r', 'u', 'e'] ∨ v = ['f', 'a', 'l', 's', 'e'] then v
  else '\"' :: v ++ ['\"']

/-- A top-level YAML sequence item `- scalar`. -/
def yamlLineSeqItem : List Char → Option (List Char)
  | '-' :: ' ' :: r => some r
  | _ => none

/-- A top-level YAML mapping line `key: scalar`, rendered as a JSON member. -/
def yamlLineMapping (l : List Char) : Option (List Char) :=
  (splitColonSpace l).map (fun p => '\"' :: p.1 ++ ['\"', ':'] ++ yamlScalarJson p.2)

/-- Collect a list of options, failing if any entry is `none`. -/
def optionsAll : List (Option (List Char)) → Option (List (List Char))
  | [] => some []
  | none :: _ => none
  | some x :: rest => (optionsAll rest).map (fun xs => x :: xs)

/-- Model of the external `ghodss/yaml.YAMLToJSONStrict` collaborator on the
YAML fragment the verified properties exercise: an empty document converts to
the JSON null literal, a flow of top-level `- scalar` lines to a JSON array,
a flow of top-level `key: scalar` lines to a JSON object, and anything else
fails strict parsing.  The YAML engine itself is outside the studied sources
(the spec treats structural validation as an external capability), so only
this fragment is modelled. -/
def yamlToJSONStrict (s : String) : Except String String :=
  let lines := (splitLinesAux s.data []).filter (fun l => l ≠ [])
  if lines = [] then Except.ok "null"
  else
    match optionsAll (lines.map yamlLineSeqItem) with
    | some items =>
      Except.ok (String.mk ('[' :: List.intercalate [','] (items.map yamlScalarJson) ++ [']']))
    | none =>
      match optionsAll (lines.map yamlLineMapping) with
      | some members =>
        Except.ok (String.mk ('\x7b' :: List.intercalate [','] members ++ ['\x7d']))
      | none => Except.error "yaml: could not convert"

/-- Model of `IsValidYAML` (type-utils.go lines 58-65): convert YAML to JSON
strictly, fail closed on a conversion error, otherwise apply `IsValidJSON` to
the converted text. -/
def IsValidYAML (input : String) : Bool :=
  match yamlToJSONStrict input with
  | Except.error _ => false
  | Except.ok jsonInput => IsValidJSON jsonInput

/-! ## Part 3: model of src/api/restHandler/ResourceGroupRestHandler.go.
Collaborator results (user service, JSON decoder, validator, route variables,
resource-group service) are supplied through a `HandlerEnv` oracle record;
each handler returns an outcome record that also reports every validator call
and the exact request handed to the service. -/

/-- Modelled from the spec: `resourceGroup.ResourceGroupType` (declared in
pkg/resourceGroup, outside the provided sources) is a string-valued type whose
zero value is the empty string. -/
abbrev ResourceGroupType := String

/-- Modelled from the spec: the canonical APP_GROUP constant of
pkg/resourceGroup; the spec gives `app-group` as its token. -/
def APP_GROUP : ResourceGroupType := "app-group"

/-- Modelled from the spec: the canonical ENV_GROUP constant of
pkg/resourceGroup; the spec gives `env-group` as its token. -/
def ENV_GROUP : ResourceGroupType := "env-group"

/-- The two batch-authorization strategies the handler can bind onto a
request, as tags: `appAuthBatch` stands for the method `checkAppAuthBatch`
and `envAuthBatch` for `checkEnvAuthBatch`. -/
inductive AuthFunc where
  | appAuthBatch
  | envAuthBatch
  deriving DecidableEq, Repr

/-- Modelled from the spec: the fields of `resourceGroup.ResourceGroupDto`
that the handler reads or writes (the DTO declaration lives in
pkg/resourceGroup, outside the provided sources; spec section 3 lists these
fields).  `checkAuthBatch` holds the attached strategy tag, `none` being the
nil function. -/
structure ResourceGroupDto where
  groupType : ResourceGroupType := ""
  parentResourceId : Int := 0
  resourceIds : List Int := []
  appIds : List Int := []
  environmentId : Int := 0
  userId : Int := 0
  checkAuthBatch : Option AuthFunc := none
  deriving DecidableEq, Repr

/-- Model of `getGroupTypeAndAuthFunc` (ResourceGroupRestHandler.go lines
63-77), the single resolver every entry point calls: the Go triple
(ResourceGroupType, auth function, error) becomes a triple with the function
as a strategy tag (nil becomes `none`) and the error as an optional message.
On failure the source returns the zero-valued type, the empty string. -/
def getGroupTypeAndAuthFunc (groupType : String) :
    ResourceGroupType × Option AuthFunc × Option String :=
  if groupType = "env-group" then
    (ENV_GROUP, some AuthFunc.envAuthBatch, none)
  else if groupType = "" ∨ groupType = "app-group" then
    (APP_GROUP, some AuthFunc.appAuthBatch, none)
  else
    ("", none, some ("invalid group type " ++ groupType))

/-- The backward-compatibility block shared verbatim by CreateResourceGroup
(lines 166-173), UpdateResourceGroup (lines 216-224) and
CheckResourceGroupPermissions (lines 296-304): only when the resolved kind is
APP_GROUP, a positive environmentId overrides parentResourceId and a
non-empty appIds overrides resourceIds; the two ifs are sequential in the
source. -/
def normalizeLegacyFields (groupType : ResourceGroupType) (req : ResourceGroupDto) :
    ResourceGroupDto :=
  if groupType = APP_GROUP then
    let req1 := if req.environmentId > 0 then { req with parentResourceId := req.environmentId } else req
    if req1.appIds.length > 0 then { req1 with resourceIds := req1.appIds } else req1
  else req

/-- Oracle environment for one HTTP request: the collaborator results the
handler consumes.  `loggedInUser` is the (userId, error) pair from
`userService.GetLoggedInUser`, `decodeBody` the JSON decoder's result,
`varsResourceId` and `varsResourceGroupId` the `strconv.Atoi` results on the
route variables, `varsGroupType` the raw groupType route variable, `validate`
the result of `validator.Struct` on a given payload, and the `service*`
fields the resource-group service responses. -/
structure HandlerEnv where
  token : String
  loggedInUser : Int × Option String
  decodeBody : Except String ResourceGroupDto
  varsResourceId : Option Int
  varsResourceGroupId : Option Int
  varsGroupType : String
  validate : ResourceGroupDto → Option String
  serviceList : String → Option AuthFunc → Int → ResourceGroupType → Except String Unit
  serviceCreate : ResourceGroupDto → String → Except String Unit
  serviceUpdate : ResourceGroupDto → String → Except String Unit
  serviceDelete : Int → ResourceGroupType → String → Option AuthFunc → Except String Unit
  serviceCheckPermissions : ResourceGroupDto → String → Except String Unit

/-- HTTP status written by the handler. -/
inductive HttpStatus where
  | ok
  | badRequest
  | unauthorized
  | internalServerError
  deriving DecidableEq, Repr

/-- Outcome of a body-carrying handler: the written status, the payloads
passed to `validator.Struct` in call order, and whether and with which request
the resource-group service was invoked. -/
structure HandlerOutcome where
  status : HttpStatus
  validated : List ResourceGroupDto := []
  serviceCalled : Bool := false
  serviceRequest : Option ResourceGroupDto := none
  deriving DecidableEq, Repr

/-- Outcome of the list handler, recording the service arguments
(token, auth function, resourceId, groupType). -/
structure ListOutcome where
  status : HttpStatus
  serviceCalled : Bool := false
  serviceArgs : Option (String × Option AuthFunc × Int × ResourceGroupType) := none
  deriving DecidableEq, Repr

/-- Outcome of the delete handler, recording the service arguments
(resourceGroupId, groupType, token, auth function). -/
structure DeleteOutcome where
  status : HttpStatus
  serviceCalled : Bool := false
  serviceArgs : Option (Int × ResourceGroupType × String × Option AuthFunc) := none
  deriving DecidableEq, Repr

/-- Model of `GetActiveResourceGroupList` (lines 79-101): parse resourceId,
resolve the group type from the route, 400 on either failure, then delegate. -/
def GetActiveResourceGroupList (env : HandlerEnv) : ListOutcome :=
  match env.varsResourceId with
  | none => { status := HttpStatus.badRequest }
  | some resourceId =>
    let res := getGroupTypeAndAuthFunc env.varsGroupType
    if res.2.2.isSome then { status := HttpStatus.badRequest }
    else
      match env.serviceList env.token res.2.1 resourceId res.1 with
      | Except.error _ =>
        { status := HttpStatus.internalServerError, serviceCalled := true,
          serviceArgs := some (env.token, res.2.1, resourceId, res.1) }
      | Except.ok _ =>
        { status := HttpStatus.ok, serviceCalled := true,
          serviceArgs := some (env.token, res.2.1, resourceId, res.1) }

/-- Model of `CreateResourceGroup` (lines 128-190): 401 unless a user
resolves, 400 on decode failure, set userId, validate, parse resourceId,
resolve kind from the body, overwrite parentResourceId with the route id and
groupType with the canonical kind, apply the backward-compatibility block,
validate again, attach the strategy, delegate. -/
def CreateResourceGroup (env : HandlerEnv) : HandlerOutcome :=
  if env.loggedInUser.1 = 0 ∨ (env.loggedInUser.2).isSome = true then
    { status := HttpStatus.unauthorized }
  else
    match env.decodeBody with
    | Except.error _ => { status := HttpStatus.badRequest }
    | Except.ok decoded =>
      let req1 := { decoded with userId := env.loggedInUser.1 }
      match env.validate req1 with
      | some _ => { status := HttpStatus.badRequest, validated := [req1] }
      | none =>
        match env.varsResourceId with
        | none => { status := HttpStatus.badRequest, validated := [req1] }
        | some resourceId =>
          let res := getGroupTypeAndAuthFunc req1.groupType
          if res.2.2.isSome then { status := HttpStatus.badRequest, validated := [req1] }
          else
            let req2 := { req1 with parentResourceId := resourceId, groupType := res.1 }
            let req3 := normalizeLegacyFields res.1 req2
            match env.validate req3 with
            | some _ => { status := HttpStatus.badRequest, validated := [req1, req3] }
            | none =>
              let req4 := { req3 with checkAuthBatch := res.2.1 }
              match env.serviceCreate req4 env.token with
              | Except.error _ =>
                { status := HttpStatus.internalServerError, validated := [req1, req3],
                  serviceCalled := true, serviceRequest := some req4 }
              | Except.ok _ =>
                { status := HttpStatus.ok, validated := [req1, req3],
                  serviceCalled := true, serviceRequest := some req4 }

/-- Model of `UpdateResourceGroup` (lines 191-242): 401 unless a user
resolves, 400 on decode failure, set userId, resolve kind from the body,
overwrite groupType, apply the backward-compatibility block, then the single
validator call, attach the strategy, delegate.  No route variable is read. -/
def UpdateResourceGroup (env : HandlerEnv) : HandlerOutcome :=
  if env.loggedInUser.1 = 0 ∨ (env.loggedInUser.2).isSome = true then
    { status := HttpStatus.unauthorized }
  else
    match env.decodeBody with
    | Except.error _ => { status := HttpStatus.badRequest }
    | Except.ok decoded =>
      let req1 := { decoded with userId := env.loggedInUser.1 }
      let res := getGroupTypeAndAuthFunc req1.groupType
      if res.2.2.isSome then { status := HttpStatus.badRequest }
      else
        let req2 := { req1 with groupType := res.1 }
        let req3 := normalizeLegacyFields res.1 req2
        match env.validate req3 with
        | some _ => { status := HttpStatus.badRequest, validated := [req3] }
        | none =>
          let req4 := { req3 with checkAuthBatch := res.2.1 }
          match env.serviceUpdate req4 env.token with
          | Except.error _ =>
            { status := HttpStatus.internalServerError, validated := [req3],
              serviceCalled := true, serviceRequest := some req4 }
          | Except.ok _ =>
            { status := HttpStatus.ok, validated := [req3],
              serviceCalled := true, serviceRequest := some req4 }

/-- Model of `DeleteResourceGroup` (lines 243-263): parse resourceGroupId
(400 on failure), resolve the group type from the route but never inspect the
resolver's error (line 253 discards it), then call the service with whatever
kind and auth function came back - the zero kind and nil function when the
token was unresolvable. -/
def DeleteResourceGroup (env : HandlerEnv) : DeleteOutcome :=
  match env.varsResourceGroupId with
  | none => { status := HttpStatus.badRequest }
  | some resourceGroupId =>
    let res := getGroupTypeAndAuthFunc env.varsGroupType
    match env.serviceDelete resourceGroupId res.1 env.token res.2.1 with
    | Except.error _ =>
      { status := HttpStatus.internalServerError, serviceCalled := true,
        serviceArgs := some (resourceGroupId, res.1, env.token, res.2.1) }
    | Except.ok _ =>
      { status := HttpStatus.ok, serviceCalled := true,
        serviceArgs := some (resourceGroupId, res.1, env.token, res.2.1) }

/-- Model of `CheckResourceGroupPermissions` (lines 264-315): 401 unless a
user resolves, 400 on decode failure, set userId, parse resourceId, resolve
kind from the body, overwrite groupType and parentResourceId, apply the
backward-compatibility block, attach the strategy, delegate.  The handler
never calls the validator. -/
def CheckResourceGroupPermissions (env : HandlerEnv) : HandlerOutcome :=
  if env.loggedInUser.1 = 0 ∨ (env.loggedInUser.2).isSome = true then
    { status := HttpStatus.unauthorized }
  else
    match env.decodeBody with
    | Except.error _ => { status := HttpStatus.badRequest }
    | Except.ok decoded =>
      let req1 := { decoded with userId := env.loggedInUser.1 }
      match env.varsResourceId with
      | none => { status := HttpStatus.badRequest }
      | some resourceId =>
        let res := getGroupTypeAndAuthFunc req1.groupType
        if res.2.2.isSome then { status := HttpStatus.badRequest }
        else
          let req2 := { req1 with groupType := res.1, parentResourceId := resourceId }
          let req3 := normalizeLegacyFields res.1 req2
          let req4 := { req3 with checkAuthBatch := res.2.1 }
          match env.serviceCheckPermissions req4 env.token with
          | Except.error _ =>
            { status := HttpStatus.internalServerError,
              serviceCalled := true, serviceRequest := some req4 }
          | Except.ok _ =>
            { status := HttpStatus.ok,
              serviceCalled := true, serviceRequest := some req4 }

/-- Modelled from the spec: the casbin resource-kind constant for application
objects (declared in pkg/auth/authorisation/casbin, outside the provided
sources); its exact value is irrelevant to the verified properties. -/
def ResourceApplications : String := "applications"

/-- Modelled from the spec: the casbin resource-kind constant for environment
objects (declared outside the provided sources). -/
def ResourceEnvironment : String := "environment"

/-- Model of `checkAppAuthBatch` (lines 317-323), parameterized by the
enforcer's `EnforceInBatch`: the second component records whether the
enforcer was invoked at all; with an empty object list the declared-nil map
(here the empty association list) is returned untouched. -/
def checkAppAuthBatch
    (enforceInBatch : String → String → String → List String → List (String × Bool))
    (token : String) (appObject : List String) (action : String) :
    List (String × Bool) × Bool :=
  if appObject.length > 0 then
    (enforceInBatch token ResourceApplications action appObject, true)
  else ([], false)

/-- Model of `checkEnvAuthBatch` (lines 325-331), parameterized by the
enforcer's `EnforceInBatch`. -/
def checkEnvAuthBatch
    (enforceInBatch : String → String → String → List String → List (String × Bool))
    (token : String) (envObject : List String) (action : String) :
    List (String × Bool) × Bool :=
  if envObject.length > 0 then
    (enforceInBatch token ResourceEnvironment action envObject, true)
  else ([], false)

/-- A concrete oracle environment for witnesses and counterexamples: an
authenticated user, a decoded body that omits groupType (the legacy shape of
spec section 8's third scenario: environmentId 7, appIds [1, 2]), route
resourceId 5, an unresolvable delete-route group token, a validator that
accepts everything and services that succeed. -/
def envBase : HandlerEnv where
  token := "tkn"
  loggedInUser := (12, none)
  decodeBody := Except.ok
    { groupType := "", parentResourceId := 0, resourceIds := [], appIds := [1, 2],
      environmentId := 7, userId := 0, checkAuthBatch := none }
  varsResourceId := some 5
  varsResourceGroupId := some 3
  varsGroupType := "bogus"
  validate := fun _ => none
  serviceList := fun _ _ _ _ => Except.ok ()
  serviceCreate := fun _ _ => Except.ok ()
  serviceUpdate := fun _ _ => Except.ok ()
  serviceDelete := fun _ _ _ _ => Except.ok ()
  serviceCheckPermissions := fun _ _ => Except.ok ()

/-! ## Helper lemmas about the quote-trimming and parsing primitives -/

theorem isQuote_eq_true_iff (c : Char) : isQuote c = true ↔ c = '\"' := by
  simp [isQuote]

theorem dropWhile_isQuote_decomp (l : List Char) :
    ∃ k, l = List.replicate k '\"' ++ l.dropWhile isQuote := by
  induction l with
  | nil => exact ⟨0, rfl⟩
  | cons c rest ih =>
    by_cases hc : isQuote c
    · have hc2 : c = '\"' := (isQuote_eq_true_iff c).mp hc
      subst hc2
      obtain ⟨k, hk⟩ := ih
      exact ⟨k + 1, by
        rw [List.dropWhile_cons, if_pos hc, List.replicate_succ, List.cons_append, ← hk]⟩
    · exact ⟨0, by rw [List.dropWhile_cons, if_neg hc, List.replicate_zero, List.nil_append]⟩

theorem head?_dropWhile_isQuote (l : List Char) :
    (l.dropWhile isQuote).head? ≠ some '\"' := by
  induction l with
  | nil => simp
  | cons c rest ih =>
    by_cases hc : isQuote c
    · rw [List.dropWhile_cons, if_pos hc]
      exact ih
    · rw [List.dropWhile_cons, if_neg hc]
      simp only [List.head?_cons, ne_eq, Option.some.injEq]
      intro h
      exact hc ((isQuote_eq_true_iff c).mpr h)

theorem dropWhile_isQuote_of_head (l : List Char) (h : l.head? ≠ some '\"') :
    l.dropWhile isQuote = l := by
  cases l with
  | nil => rfl
  | cons c rest =>
    rw [List.dropWhile_cons, if_neg]
    intro hc
    exact h (by simp [(isQuote_eq_true_iff c).mp hc])

theorem trimQuotesList_mid (l : List Char) :
    ∃ m, l.dropWhile isQuote = trimQuotesList l ++ List.replicate m '\"' := by
  obtain ⟨m, hm⟩ := dropWhile_isQuote_decomp (l.dropWhile isQuote).reverse
  refine ⟨m, ?_⟩
  have h2 := congrArg List.reverse hm
  rw [List.reverse_reverse, List.reverse_append, List.reverse_replicate] at h2
  exact h2

theorem trimQuotesList_decomp (l : List Char) :
    ∃ k m, l = List.replicate k '\"' ++ trimQuotesList l ++ List.replicate m '\"' := by
  obtain ⟨k, hk⟩ := dropWhile_isQuote_decomp l
  obtain ⟨m, hm⟩ := trimQuotesList_mid l
  exact ⟨k, m, by rw [List.append_assoc, ← hm, ← hk]⟩

theorem trimQuotesList_head (l : List Char) :
    (trimQuotesList l).head? ≠ some '\"' := by
  obtain ⟨m, hm⟩ := trimQuotesList_mid l
  have hhead := head?_dropWhile_isQuote l
  rw [hm] at hhead
  cases htrim : trimQuotesList l with
  | nil => simp
  | cons x xs =>
    rw [htrim] at hhead
    simpa using hhead

theorem trimQuotesList_getLast (l : List Char) :
    (trimQuotesList l).getLast? ≠ some '\"' := by
  unfold trimQuotesList
  rw [List.getLast?_reverse]
  exact head?_dropWhile_isQuote _

theorem trimQuotesList_quoted (t : List Char)
    (h1 : t.head? ≠ some '\"') (h2 : t.getLast? ≠ some '\"') :
    trimQuotesList ('\"' :: (t ++ ['\"'])) = t := by
  unfold trimQuotesList
  rw [List.dropWhile_cons, if_pos (by simp [isQuote])]
  cases t with
  | nil =>
    rfl
  | cons x xs =>
    have hx : ¬ isQuote x = true := by
      intro hq
      exact h1 (by simp [(isQuote_eq_true_iff x).mp hq])
    rw [List.cons_append, List.dropWhile_cons, if_neg hx]
    rw [show (x :: (xs ++ ['\"'])).reverse = '\"' :: (x :: xs).reverse by simp]
    rw [List.dropWhile_cons, if_pos (by simp [isQuote])]
    rw [dropWhile_isQuote_of_head _ (by rw [List.head?_reverse]; exact h2)]
    exact List.reverse_reverse _

theorem goAtoiList_cons_not_num (c : Char) (xs : List Char)
    (hd : isDigit c = false) (hp : c ≠ '+') (hm : c ≠ '-') :
    goAtoiList (c :: xs) = none := by
  have hpd : parseDecDigits (c :: xs) = none := by
    unfold parseDecDigits
    rw [if_neg (by simp), if_neg]
    simp [hd]
  unfold goAtoiList
  simp [hp, hm, hpd]

theorem specialFloat_cons_quote (xs : List Char) :
    specialFloat ('\"' :: xs) = false := by
  have hne : ¬(('\"' : Char) = '+' ∨ ('\"' : Char) = '-') := by decide
  have hlo : Char.toLower '\"' = '\"' := by decide
  simp only [specialFloat]
  rw [if_neg hne]
  rw [decide_eq_false_iff_not]
  push_neg
  constructor
  · simp only [infTok, ne_eq, decide_eq_true_eq, not_or]
    constructor <;> · rw [List.map_cons, hlo]; intro h; simp at h
  · rw [List.map_cons, hlo]
    intro h
    simp at h

theorem hexPrefix_cons_quote (xs : List Char) : hexPrefix ('\"' :: xs) = none := by
  cases xs with
  | nil => rfl
  | cons c1 r =>
    simp only [hexPrefix]
    rw [if_neg]
    intro h
    exact absurd h.1 (by decide)

theorem decFloatParse_cons_quote (xs : List Char) :
    decFloatParse ('\"' :: xs) = none := by
  have hd : isDigit '\"' = false := by decide
  have hdot : ('\"' : Char) ≠ '.' := by decide
  unfold decFloatParse
  simp [List.takeWhile_cons, List.dropWhile_cons, hd, hdot]

theorem goParseFloatCore_cons_quote (xs : List Char) :
    goParseFloatCore ('\"' :: xs) = false := by
  have hne : ¬(('\"' : Char) = '+' ∨ ('\"' : Char) = '-') := by decide
  simp only [goParseFloatCore, goStripSign]
  rw [if_neg hne, hexPrefix_cons_quote, decFloatParse_cons_quote]

theorem goParseFloatAccepts_head_quote (s : String) (xs : List Char)
    (hxs : s.data = '\"' :: xs) :
    goParseFloatAccepts s = false := by
  simp only [goParseFloatAccepts]
  rw [hxs, specialFloat_cons_quote, if_neg (by simp)]
  by_cases hc : ('\"' :: xs).contains '_'
  · rw [if_pos hc]
    have hfil : ('\"' :: xs).filter (fun c => c ≠ '_') =
        '\"' :: xs.filter (fun c => c ≠ '_') := by
      rw [List.filter_cons, if_pos (by decide)]
    rw [hfil, goParseFloatCore_cons_quote, Bool.and_false]
  · rw [if_neg hc]
    exact goParseFloatCore_cons_quote xs

theorem goParseBool_head_quote (s : String) (h : s.data.head? = some '\"') :
    goParseBool s = none := by
  have hne : ∀ t : String, t.data.head? ≠ some '\"' → ¬ s = t := by
    intro t ht heq
    rw [heq] at h
    exact ht h
  unfold goParseBool
  rw [if_neg (by
      push_neg
      exact ⟨hne "1" (by decide), hne "t" (by decide), hne "T" (by decide),
        hne "TRUE" (by decide), hne "true" (by decide), hne "True" (by decide)⟩),
    if_neg (by
      push_neg
      exact ⟨hne "0" (by decide), hne "f" (by decide), hne "F" (by decide),
        hne "FALSE" (by decide), hne "false" (by decide), hne "False" (by decide)⟩)]

theorem goAtoi_head_quote (s : String) (xs : List Char) (hxs : s.data = '\"' :: xs) :
    goAtoi s = none := by
  unfold goAtoi
  rw [hxs]
  exact goAtoiList_cons_not_num '\"' xs (by decide) (by decide) (by decide)

theorem destringifyValue_head_quote (s : String) (xs : List Char)
    (hxs : s.data = '\"' :: xs) :
    (DestringifyValue s).1 = GoValue.str (goTrimQuotes s) := by
  unfold DestringifyValue
  rw [goAtoi_head_quote s xs hxs, goParseFloatAccepts_head_quote s xs hxs,
    goParseBool_head_quote s (by rw [hxs]; rfl)]
  simp

/-! ## Claim theorems -/

/-- Claim C1: the resolver `getGroupTypeAndAuthFunc` maps the empty token and
`app-group` to APP_GROUP bound to the application-scoped batch strategy, maps
exactly `env-group` to ENV_GROUP bound to the environment-scoped strategy, and
fails with the invalid-group-type error (returning the zero kind and the nil
strategy) on every other token.  The definition is a pure Lean function shared
by all five handler embeddings, mirroring the single method every entry point
calls. -/
theorem getGroupTypeAndAuthFunc_trichotomy (t : String) :
    ((t = "" ∨ t = "app-group") →
      getGroupTypeAndAuthFunc t = (APP_GROUP, some AuthFunc.appAuthBatch, none))
  ∧ (t = "env-group" →
      getGroupTypeAndAuthFunc t = (ENV_GROUP, some AuthFunc.envAuthBatch, none))
  ∧ (t ≠ "" → t ≠ "app-group" → t ≠ "env-group" →
      getGroupTypeAndAuthFunc t = ("", none, some ("invalid group type " ++ t))) := by
  refine ⟨?_, ?_, ?_⟩
  · rintro (rfl | rfl) <;> decide
  · rintro rfl
    decide
  · intro h1 h2 h3
    unfold getGroupTypeAndAuthFunc
    rw [if_neg h3, if_neg (by push_neg; exact ⟨h1, h2⟩)]

theorem getGroupTypeAndAuthFunc_trichotomy_witness :
    getGroupTypeAndAuthFunc "" = (APP_GROUP, some AuthFunc.appAuthBatch, none)
  ∧ getGroupTypeAndAuthFunc "env-group" = (ENV_GROUP, some AuthFunc.envAuthBatch, none)
  ∧ getGroupTypeAndAuthFunc "xyz" = ("", none, some "invalid group type xyz") :=
  ⟨(getGroupTypeAndAuthFunc_trichotomy "").1 (Or.inl rfl),
   (getGroupTypeAndAuthFunc_trichotomy "env-group").2.1 rfl,
   (getGroupTypeAndAuthFunc_trichotomy "xyz").2.2 (by decide) (by decide) (by decide)⟩

/-- Claim C2: the shared backward-compatibility block overrides
parentResourceId with environmentId exactly when environmentId is positive and
overrides resourceIds with appIds exactly when appIds is non-empty, the two
overrides independent of each other and leaving every other field unchanged
(stated as a single simultaneous record update); for ENV_GROUP the block
changes no field. -/
theorem normalizeLegacyFields_spec (r : ResourceGroupDto) :
    normalizeLegacyFields APP_GROUP r =
      { r with
        parentResourceId :=
          if r.environmentId > 0 then r.environmentId else r.parentResourceId,
        resourceIds := if r.appIds.length > 0 then r.appIds else r.resourceIds }
  ∧ normalizeLegacyFields ENV_GROUP r = r := by
  constructor
  · unfold normalizeLegacyFields
    rw [if_pos rfl]
    by_cases h1 : r.environmentId > 0 <;> by_cases h2 : r.appIds.length > 0 <;>
      simp [h1, h2]
  · unfold normalizeLegacyFields
    rw [if_neg (by decide)]

/-- Claim C3: `DeleteResourceGroup` never consults the resolver's error: for
any environment whose route id parses and whose group-type token the resolver
rejects, the service is still invoked - with the zero kind and the nil
strategy - and the response is not BadRequest. -/
theorem deleteResourceGroup_skips_resolver_error (env : HandlerEnv) (id : Int) (e : String)
    (h1 : env.varsResourceGroupId = some id)
    (h2 : (getGroupTypeAndAuthFunc env.varsGroupType).2.2 = some e) :
    (DeleteResourceGroup env).serviceCalled = true
  ∧ (DeleteResourceGroup env).serviceArgs = some (id, "", env.token, none)
  ∧ (DeleteResourceGroup env).status ≠ HttpStatus.badRequest := by
  have hres : getGroupTypeAndAuthFunc env.varsGroupType =
      ("", none, some ("invalid group type " ++ env.varsGroupType)) := by
    unfold getGroupTypeAndAuthFunc at h2 ⊢
    by_cases c1 : env.varsGroupType = "env-group"
    · rw [if_pos c1] at h2
      simp at h2
    · rw [if_neg c1] at h2 ⊢
      by_cases c2 : env.varsGroupType = "" ∨ env.varsGroupType = "app-group"
      · rw [if_pos c2] at h2
        simp at h2
      · rw [if_neg c2]
  unfold DeleteResourceGroup
  rw [h1]
  simp only [hres]
  cases hdel : env.serviceDelete id "" env.token none <;> simp [hdel]

theorem deleteResourceGroup_skips_resolver_error_witness :
    (DeleteResourceGroup envBase).serviceCalled = true
  ∧ (DeleteResourceGroup envBase).serviceArgs = some (3, "", "tkn", none)
  ∧ (DeleteResourceGroup envBase).status ≠ HttpStatus.badRequest :=
  deleteResourceGroup_skips_resolver_error envBase 3 "invalid group type bogus"
    rfl (by decide)

/-- Claim C4: in each of the three mutating handlers, a user resolution that
yields userId 0 or an error produces the Unauthorized status and the
resource-group service is never invoked. -/
theorem mutating_handlers_unauthorized (env : HandlerEnv)
    (h : env.loggedInUser.1 = 0 ∨ (env.loggedInUser.2).isSome = true) :
    ((CreateResourceGroup env).status = HttpStatus.unauthorized
      ∧ (CreateResourceGroup env).serviceCalled = false)
  ∧ ((UpdateResourceGroup env).status = HttpStatus.unauthorized
      ∧ (UpdateResourceGroup env).serviceCalled = false)
  ∧ ((CheckResourceGroupPermissions env).status = HttpStatus.unauthorized
      ∧ (CheckResourceGroupPermissions env).serviceCalled = false) := by
  unfold CreateResourceGroup UpdateResourceGroup CheckResourceGroupPermissions
  rw [if_pos h, if_pos h, if_pos h]
  exact ⟨⟨rfl, rfl⟩, ⟨rfl, rfl⟩, ⟨rfl, rfl⟩⟩

theorem mutating_handlers_unauthorized_witness :
    ((CreateResourceGroup { envBase with loggedInUser := (0, none) }).status =
        HttpStatus.unauthorized
      ∧ (CreateResourceGroup { envBase with loggedInUser := (0, none) }).serviceCalled = false)
  ∧ ((UpdateResourceGroup { envBase with loggedInUser := (0, none) }).status =
        HttpStatus.unauthorized
      ∧ (UpdateResourceGroup { envBase with loggedInUser := (0, none) }).serviceCalled = false)
  ∧ ((CheckResourceGroupPermissions { envBase with loggedInUser := (0, none) }).status =
        HttpStatus.unauthorized
      ∧ (CheckResourceGroupPermissions
          { envBase with loggedInUser := (0, none) }).serviceCalled = false) :=
  mutating_handlers_unauthorized { envBase with loggedInUser := (0, none) } (Or.inl rfl)

/-- Claim C9: both bound strategies short-circuit on an empty
object-identifier list: they return the empty result map and the enforcer's
EnforceInBatch is never invoked (second component false). -/
theorem authBatch_empty_shortcircuit
    (enforceInBatch : String → String → String → List String → List (String × Bool))
    (token action : String) :
    checkAppAuthBatch enforceInBatch token [] action = ([], false)
  ∧ checkEnvAuthBatch enforceInBatch token [] action = ([], false) :=
  ⟨rfl, rfl⟩

/-- Claim C10: the classification helpers are not uniformly total at nil:
`IsPrimitiveType nil` is false (the reflected kind Invalid matches no listed
kind) while `IsStringType nil` panics (modelled as `none`); every non-nil
value classifies without panicking. -/
theorem classifier_nil_edge :
    IsPrimitiveType GoValue.nil = false
  ∧ IsStringType GoValue.nil = none
  ∧ (∀ v : GoValue, v ≠ GoValue.nil →
      IsStringType v = some (reflectKind v == GoKind.string)) := by
  refine ⟨rfl, rfl, ?_⟩
  intro v hv
  cases v
  · exact absurd rfl hv
  all_goals rfl

theorem classifier_nil_edge_witness :
    IsStringType (GoValue.str "x") = some true :=
  classifier_nil_edge.2.2 (GoValue.str "x") (by decide)

/-- Claim C5 (amended): `UpdateResourceGroup` runs struct validation at most
once per request - exactly once on requests that pass decode and kind
resolution - and that single validation happens after the
legacy-compatibility normalization (the validator receives the normalized
request), whereas `CreateResourceGroup` validates both after decode and again
after normalization. -/
theorem update_validates_once_after_normalization :
    (∀ env : HandlerEnv, (UpdateResourceGroup env).validated.length ≤ 1)
  ∧ (∀ (env : HandlerEnv) (r0 : ResourceGroupDto) (gt : ResourceGroupType) (af : AuthFunc),
      env.loggedInUser.2 = none → env.loggedInUser.1 ≠ 0 →
      env.decodeBody = Except.ok r0 →
      getGroupTypeAndAuthFunc r0.groupType = (gt, some af, none) →
      (UpdateResourceGroup env).validated =
        [normalizeLegacyFields gt { r0 with userId := env.loggedInUser.1, groupType := gt }])
  ∧ (∀ (env : HandlerEnv) (r0 : ResourceGroupDto) (gt : ResourceGroupType)
        (af : AuthFunc) (rid : Int),
      env.loggedInUser.2 = none → env.loggedInUser.1 ≠ 0 →
      env.decodeBody = Except.ok r0 →
      env.validate { r0 with userId := env.loggedInUser.1 } = none →
      env.varsResourceId = some rid →
      getGroupTypeAndAuthFunc r0.groupType = (gt, some af, none) →
      (CreateResourceGroup env).validated =
        [{ r0 with userId := env.loggedInUser.1 },
         normalizeLegacyFields gt
           { r0 with
             userId := env.loggedInUser.1, parentResourceId := rid,
             groupType := gt }]) := by
  refine ⟨?_, ?_, ?_⟩
  · intro env
    unfold UpdateResourceGroup
    split
    · simp
    split
    · simp
    dsimp only
    split
    · simp
    split
    · simp
    split <;> simp
  · intro env r0 gt af hu h0 hd hg
    have hauth : ¬(env.loggedInUser.1 = 0 ∨ (env.loggedInUser.2).isSome = true) := by
      push_neg
      exact ⟨h0, by simp [hu]⟩
    unfold UpdateResourceGroup
    rw [if_neg hauth]
    simp only [hd, hg]
    cases hv : env.validate
        (normalizeLegacyFields gt { r0 with userId := env.loggedInUser.1, groupType := gt }) with
    | some err => simp [hv]
    | none =>
      cases hs : env.serviceUpdate
          { (normalizeLegacyFields gt
              { r0 with userId := env.loggedInUser.1, groupType := gt }) with
            checkAuthBatch := some af } env.token with
      | error e => simp [hv, hs]
      | ok u => simp [hv, hs]
  · intro env r0 gt af rid hu h0 hd hv1 hr hg
    have hauth : ¬(env.loggedInUser.1 = 0 ∨ (env.loggedInUser.2).isSome = true) := by
      push_neg
      exact ⟨h0, by simp [hu]⟩
    unfold CreateResourceGroup
    rw [if_neg hauth]
    simp only [hd, hv1, hr, hg]
    cases hv2 : env.validate
        (normalizeLegacyFields gt
          { r0 with
            userId := env.loggedInUser.1, parentResourceId := rid,
            groupType := gt }) with
    | some err => simp [hv2]
    | none =>
      cases hs : env.serviceCreate
          { (normalizeLegacyFields gt
              { r0 with
                userId := env.loggedInUser.1, parentResourceId := rid,
                groupType := gt }) with
            checkAuthBatch := some af } env.token with
      | error e => simp [hv2, hs]
      | ok u => simp [hv2, hs]

theorem update_validates_once_after_normalization_witness :
    (UpdateResourceGroup envBase).validated =
      [{ groupType := "app-group", parentResourceId := 7, resourceIds := [1, 2],
         appIds := [1, 2], environmentId := 7, userId := 12, checkAuthBatch := none }]
  ∧ (CreateResourceGroup envBase).validated =
      [{ groupType := "", parentResourceId := 0, resourceIds := [], appIds := [1, 2],
         environmentId := 7, userId := 12, checkAuthBatch := none },
       { groupType := "app-group", parentResourceId := 7, resourceIds := [1, 2],
         appIds := [1, 2], environmentId := 7, userId := 12, checkAuthBatch := none }] := by
  have h := update_validates_once_after_normalization
  refine ⟨?_, ?_⟩
  · have h2 := h.2.1 envBase
      { groupType := "", parentResourceId := 0, resourceIds := [], appIds := [1, 2],
        environmentId := 7, userId := 0, checkAuthBatch := none }
      "app-group" AuthFunc.appAuthBatch rfl (by decide) rfl (by decide)
    revert h2
    decide
  · have h3 := h.2.2 envBase
      { groupType := "", parentResourceId := 0, resourceIds := [], appIds := [1, 2],
        environmentId := 7, userId := 0, checkAuthBatch := none }
      "app-group" AuthFunc.appAuthBatch 5 rfl (by decide) rfl rfl rfl (by decide)
    revert h3
    decide

/-- Claim C5 counterexample: on a request that decodes with groupType omitted,
environmentId 7 and parentResourceId 0, the single validator call of
`UpdateResourceGroup` receives the already-normalized request (canonical
groupType, parentResourceId overwritten to 7) and not the post-decode request
the claim says it receives, so the single validation is after - not before -
the legacy-compatibility normalization. -/
theorem update_validation_not_before_normalization :
    (UpdateResourceGroup envBase).validated =
      [{ groupType := "app-group", parentResourceId := 7, resourceIds := [1, 2],
         appIds := [1, 2], environmentId := 7, userId := 12, checkAuthBatch := none }]
  ∧ ¬ (UpdateResourceGroup envBase).validated =
      [{ groupType := "", parentResourceId := 0, resourceIds := [], appIds := [1, 2],
         environmentId := 7, userId := 12, checkAuthBatch := none }] := by
  decide

/-- Claim C6 (amended): composing the two coercions is a strict round trip
for booleans; for a `json.Number` token that Atoi accepts, the composition
returns the machine integer with the same numeric value, which
`StringifyValue` can no longer stringify (machine ints hit the complex-value
error), so the composition is value-preserving but not re-stringifiable; and
for text values - including text with leading zeros or inner whitespace - the
round trip returns the original string exactly whenever the text neither
begins nor ends with a double-quote character: the added quotes protect it
from being re-parsed as a number. -/
theorem stringify_destringify_roundtrip :
    (∀ (b : Bool) (s : String), StringifyValue (GoValue.boolean b) = Except.ok s →
      (DestringifyValue s).1 = GoValue.boolean b)
  ∧ (∀ (s : String) (n : Int), isValidJsonNumber s = true → goAtoi s = some n →
      StringifyValue (GoValue.jsonNumber s) = Except.ok s
      ∧ (DestringifyValue s).1 = GoValue.intV n
      ∧ ∃ e, StringifyValue (GoValue.intV n) = Except.error e)
  ∧ (∀ (t q : String), t.data.head? ≠ some '\"' → t.data.getLast? ≠ some '\"' →
      StringifyValue (GoValue.str t) = Except.ok q →
      (DestringifyValue q).1 = GoValue.str t) := by
  refine ⟨?_, ?_, ?_⟩
  · intro b s h
    cases b <;> simp only [StringifyValue] at h <;> simp at h <;> subst h <;> decide
  · intro s n h1 h2
    refine ⟨by simp [StringifyValue, h1], ?_, ⟨_, rfl⟩⟩
    unfold DestringifyValue
    rw [h2]
  · intro t q h1 h2 hs
    have hq : q = "\"" ++ t ++ "\"" := by
      simp only [StringifyValue, Except.ok.injEq] at hs
      exact hs.symm
    subst hq
    have hdata : ("\"" ++ t ++ "\"").data = '\"' :: (t.data ++ ['\"']) := rfl
    rw [destringifyValue_head_quote _ _ hdata]
    congr 1
    unfold goTrimQuotes
    rw [hdata, trimQuotesList_quoted t.data h1 h2]

theorem stringify_destringify_roundtrip_witness :
    (DestringifyValue "true").1 = GoValue.boolean true
  ∧ (StringifyValue (GoValue.jsonNumber "42") = Except.ok "42"
      ∧ (DestringifyValue "42").1 = GoValue.intV 42
      ∧ ∃ e, StringifyValue (GoValue.intV 42) = Except.error e)
  ∧ (DestringifyValue "\"07\"").1 = GoValue.str "07" :=
  ⟨stringify_destringify_roundtrip.1 true "true" rfl,
   stringify_destringify_roundtrip.2.1 "42" 42 (by decide) (by decide),
   stringify_destringify_roundtrip.2.2 "07" "\"07\"" (by decide) (by decide) rfl⟩

/-- Claim C6 counterexample: a text value with a leading zero round-trips
exactly - `DestringifyValue` gives back the string `07`, not a number,
because the stringification quoted it - so quoted text with leading zeros
does not re-parse as a number; and the integer direction is not a strict
round trip because a re-parsed machine int cannot be stringified at all. -/
theorem stringify_destringify_caveats_false :
    StringifyValue (GoValue.str "07") = Except.ok "\"07\""
  ∧ (DestringifyValue "\"07\"").1 = GoValue.str "07"
  ∧ StringifyValue (GoValue.intV 42) =
      Except.error "complex values are not allowed. 42 neeeds to be stringified" :=
  ⟨rfl, by decide, rfl⟩

/-- Claim C7 (amended): `IsValidJSON` returns true exactly when the input
parses as a JSON object or as the JSON literal null (json.Unmarshal treats
null as a successful no-op on the target map); arrays and all other scalars
are rejected.  `IsValidYAML` fails closed: false whenever strict conversion
fails, and false whenever the converted JSON is not accepted by
`IsValidJSON`.  The concrete instances of the spec hold. -/
theorem isValidJSON_objects_and_null_only :
    (∀ s : String, IsValidJSON s = true ↔
      (parseJsonTop s = some JsonValue.null ∨ ∃ f, parseJsonTop s = some (JsonValue.obj f)))
  ∧ IsValidJSON "\x7b\x7d" = true
  ∧ IsValidJSON "[]" = false
  ∧ IsValidYAML "a: 1" = true
  ∧ IsValidYAML "- 1\n- 2" = false
  ∧ (∀ (s e : String), yamlToJSONStrict s = Except.error e → IsValidYAML s = false)
  ∧ (∀ (s j : String), yamlToJSONStrict s = Except.ok j → IsValidJSON j = false →
      IsValidYAML s = false) := by
  refine ⟨?_, by decide, by decide, by decide, by decide, ?_, ?_⟩
  · intro s
    unfold IsValidJSON goUnmarshalMapResult
    cases h : parseJsonTop s with
    | none => simp [h]
    | some v => cases v <;> simp [h]
  · intro s e h
    unfold IsValidYAML
    rw [h]
  · intro s j h1 h2
    unfold IsValidYAML
    rw [h1]
    exact h2

theorem isValidJSON_objects_and_null_only_witness :
    IsValidJSON "\x7b\"k\":true\x7d" = true ∧ IsValidYAML "x" = false :=
  ⟨(isValidJSON_objects_and_null_only.1 "\x7b\"k\":true\x7d").mpr
      (Or.inr ⟨[("k", JsonValue.bool true)], rfl⟩),
   isValidJSON_objects_and_null_only.2.2.2.2.2.1 "x" "yaml: could not convert" rfl⟩

/-- Claim C7 counterexample: `IsValidJSON "null"` is true although the JSON
literal null is a scalar and not an object - json.Unmarshal of null into a
map is a successful no-op - so IsValidJSON does not return true only for
objects. -/
theorem isValidJSON_accepts_null :
    IsValidJSON "null" = true ∧ parseJsonTop "null" = some JsonValue.null :=
  ⟨by decide, rfl⟩

/-- Claim C8 (amended): `DestringifyValue` never fails (the returned error is
always nil) and tries, in strict order, integer parse, then floating-point
parse, then boolean parse; otherwise it falls back to the input with ALL
surrounding double-quote characters stripped (strings.Trim removes every
leading and trailing quote, not a single layer), with no JSON-unescaping: the
result has no leading or trailing quote and the input is the result wrapped
in some number of quotes on each side. -/
theorem destringify_order_and_trim :
    (∀ s : String, (DestringifyValue s).2 = none)
  ∧ (∀ (s : String) (n : Int), goAtoi s = some n → (DestringifyValue s).1 = GoValue.intV n)
  ∧ (∀ s : String, goAtoi s = none → goParseFloatAccepts s = true →
      (DestringifyValue s).1 = GoValue.floatV s)
  ∧ (∀ (s : String) (b : Bool), goAtoi s = none → goParseFloatAccepts s = false →
      goParseBool s = some b → (DestringifyValue s).1 = GoValue.boolean b)
  ∧ (∀ s : String, goAtoi s = none → goParseFloatAccepts s = false → goParseBool s = none →
      (DestringifyValue s).1 = GoValue.str (goTrimQuotes s)
      ∧ (goTrimQuotes s).data.head? ≠ some '\"'
      ∧ (goTrimQuotes s).data.getLast? ≠ some '\"'
      ∧ ∃ k m : Nat, s.data =
          List.replicate k '\"' ++ (goTrimQuotes s).data ++ List.replicate m '\"') := by
  refine ⟨?_, ?_, ?_, ?_, ?_⟩
  · intro s
    unfold DestringifyValue
    cases h : goAtoi s with
    | some n => simp
    | none =>
      by_cases hf : goParseFloatAccepts s = true
      · simp [hf]
      · simp only [Bool.not_eq_true] at hf
        cases hb : goParseBool s <;> simp [hf, hb]
  · intro s n h
    unfold DestringifyValue
    rw [h]
  · intro s h1 h2
    unfold DestringifyValue
    rw [h1, h2]
    simp
  · intro s b h1 h2 h3
    unfold DestringifyValue
    rw [h1, h2, h3]
    simp
  · intro s h1 h2 h3
    refine ⟨?_, trimQuotesList_head s.data, trimQuotesList_getLast s.data,
      trimQuotesList_decomp s.data⟩
    unfold DestringifyValue
    rw [h1, h2, h3]
    simp

theorem destringify_order_and_trim_witness :
    (DestringifyValue "42").2 = none
  ∧ (DestringifyValue "42").1 = GoValue.intV 42
  ∧ (DestringifyValue "1.5").1 = GoValue.floatV "1.5"
  ∧ (DestringifyValue "t").1 = GoValue.boolean true
  ∧ (DestringifyValue "\"hi\"").1 = GoValue.str (goTrimQuotes "\"hi\"") :=
  ⟨destringify_order_and_trim.1 "42",
   destringify_order_and_trim.2.1 "42" 42 (by decide),
   destringify_order_and_trim.2.2.1 "1.5" (by decide) (by decide),
   destringify_order_and_trim.2.2.2.1 "t" true (by decide) (by decide) (by decide),
   (destringify_order_and_trim.2.2.2.2 "\"hi\"" (by decide) (by decide) (by decide)).1⟩

/-- Claim C8 counterexample: on input wrapped in two layers of quotes the
fallback strips BOTH layers - strings.Trim removes every surrounding quote -
so the claimed single-layer stripping is wrong. -/
theorem destringify_strips_all_quote_layers :
    (DestringifyValue "\"\"a\"\"").1 = GoValue.str "a"
  ∧ ¬ (DestringifyValue "\"\"a\"\"").1 = GoValue.str "\"a\"" := by
  decide

end Devtron
